import Mathlib

/-!
Verification of the tablet/rowset metadata layer of `src/server/metadata.h`
(kudu). `RowSetMetadata`'s operations are embedded from their inline bodies
in the header; the bodies of `TabletMetadata::Create/Load/UpdateAndFlush/
CreateRowSet` and of the serialization glue are not part of the sources, so
they are modelled from the specification (each such definition says so in
its doc comment).
-/

set_option linter.unusedVariables false

/-- Opaque, store-assigned identifier of one physical block (`BlockId` in the
source). The null/unset sentinel state of a `BlockId` slot is modelled by
wrapping slots in `Option`: `none` is `IsNull`. -/
abbrev BlockId := Nat

/-- Outcome of a metadata operation: `ok` carries the result, `err` is a
recoverable `Status` error, `fatal` is a failed `CHECK`/`CHECK_EQ` abort
(a programming-error assertion, not a recoverable `Status`). -/
inductive COutcome (α : Type) where
  | ok : α → COutcome α
  | err : COutcome α
  | fatal : COutcome α
  deriving DecidableEq

/-- On-disk descriptor of one rowset (`RowSetDataPB`). Modelled from the spec:
a rowset descriptor holds the rowset id, bloom block id or absent, ad-hoc
index block id or absent, the ordered column block ids and the ordered
(delta id, block id) pairs; absence of bloom/index is a first-class state,
not a sentinel id. -/
structure RowSetDataPB where
  id : Nat
  bloom_block : Option BlockId
  adhoc_index_block : Option BlockId
  column_blocks : List BlockId
  delta_blocks : List (Nat × BlockId)
  deriving DecidableEq

/-- On-disk tablet descriptor (`TabletSuperBlockPB`). Modelled from the spec:
the superblock holds the tablet id, start key, end key, a sequence number and
the ordered list of rowset descriptors. -/
structure TabletSuperBlockPB where
  oid : String
  start_key : String
  end_key : String
  sequence : Nat
  rowsets : List RowSetDataPB
  deriving DecidableEq

/-- The external block store plus durable superblock location (`FsManager`).
Modelled from the spec: it issues fresh unique block ids on creation, each
I/O operation may fail (the oracle `fail_at` says whether the k-th operation
fails), the durable superblock write is complete-or-fail atomic (a failed
write leaves the previous durable superblock untouched and readable), and
`block_size` resolves a block id to its size, `none` meaning the store cannot
resolve the id. -/
structure FsManager where
  next_block_id : Nat
  op_idx : Nat
  fail_at : Nat → Bool
  superblock : Option TabletSuperBlockPB
  block_size : BlockId → Option Nat

/-- Modelled from the spec: `FsManager::CreateNewBlock` allocates a fresh
block and returns its store-assigned identifier, or fails with an I/O error
(in which case nothing is allocated). -/
def FsManager.CreateNewBlock (fs : FsManager) : COutcome (BlockId × FsManager) :=
  if fs.fail_at fs.op_idx then
    COutcome.err
  else
    COutcome.ok (fs.next_block_id,
      { fs with next_block_id := fs.next_block_id + 1, op_idx := fs.op_idx + 1 })

/-- Modelled from the spec: the durable superblock write either becomes fully
durable (replacing the previous superblock) or fails leaving the previous
durable superblock as the sole readable state. -/
def FsManager.WriteSuperBlock (fs : FsManager) (pb : TabletSuperBlockPB) :
    COutcome FsManager :=
  if fs.fail_at fs.op_idx then
    COutcome.err
  else
    COutcome.ok { fs with superblock := some pb, op_idx := fs.op_idx + 1 }

/-- In-memory state of one `RowSetMetadata`: the write-once bloom and ad-hoc
index block slots (`none` = the null `BlockId`), the ordered column block
ids, the ordered (delta id, block id) chain and the rowset id. -/
structure RowSetMetadata where
  bloom_block : Option BlockId
  adhoc_index_block : Option BlockId
  column_blocks : List BlockId
  delta_blocks : List (Nat × BlockId)
  id : Nat
  deriving DecidableEq

/-- Embeds `RowSetMetadata::NewBloomDataBlock` (metadata.h:129-132):
`CHECK(bloom_block_.IsNull())`, then a fresh block is created and its id
recorded in the bloom slot. -/
def RowSetMetadata.NewBloomDataBlock (rs : RowSetMetadata) (fs : FsManager) :
    COutcome (BlockId × RowSetMetadata × FsManager) :=
  if rs.bloom_block.isNone then
    match fs.CreateNewBlock with
    | COutcome.ok (bid, fs') =>
        COutcome.ok (bid, { rs with bloom_block := some bid }, fs')
    | COutcome.err => COutcome.err
    | COutcome.fatal => COutcome.fatal
  else
    COutcome.fatal

/-- Embeds `RowSetMetadata::NewAdHocIndexDataBlock` (metadata.h:138-141):
`CHECK(adhoc_index_block_.IsNull())`, then a fresh block is created and its
id recorded in the ad-hoc index slot. -/
def RowSetMetadata.NewAdHocIndexDataBlock (rs : RowSetMetadata) (fs : FsManager) :
    COutcome (BlockId × RowSetMetadata × FsManager) :=
  if rs.adhoc_index_block.isNone then
    match fs.CreateNewBlock with
    | COutcome.ok (bid, fs') =>
        COutcome.ok (bid, { rs with adhoc_index_block := some bid }, fs')
    | COutcome.err => COutcome.err
    | COutcome.fatal => COutcome.fatal
  else
    COutcome.fatal

/-- Embeds `RowSetMetadata::NewColumnDataBlock` (metadata.h:147-153):
`CHECK_EQ(column_blocks_.size(), col_idx)`, then a fresh block is created
and its id appended to the column block list. -/
def RowSetMetadata.NewColumnDataBlock (rs : RowSetMetadata) (col_idx : Nat)
    (fs : FsManager) : COutcome (BlockId × RowSetMetadata × FsManager) :=
  if rs.column_blocks.length = col_idx then
    match fs.CreateNewBlock with
    | COutcome.ok (bid, fs') =>
        COutcome.ok (bid, { rs with column_blocks := rs.column_blocks ++ [bid] }, fs')
    | COutcome.err => COutcome.err
    | COutcome.fatal => COutcome.fatal
  else
    COutcome.fatal

/-- Embeds `RowSetMetadata::NewDeltaDataBlock` (metadata.h:160-162): a fresh
block is created and its id returned to the caller; nothing is recorded in
the rowset state. -/
def RowSetMetadata.NewDeltaDataBlock (rs : RowSetMetadata) (fs : FsManager) :
    COutcome (BlockId × RowSetMetadata × FsManager) :=
  match fs.CreateNewBlock with
  | COutcome.ok (bid, fs') => COutcome.ok (bid, rs, fs')
  | COutcome.err => COutcome.err
  | COutcome.fatal => COutcome.fatal

/-- Embeds `RowSetMetadata::CommitDeltaDataBlock` (metadata.h:164-168): under
the rowset's delta lock, appends the (delta id, block id) pair to the delta
chain; the source always returns `Status::OK`, so the embedding returns the
updated state. The body performs no other action (in particular no flush). -/
def RowSetMetadata.CommitDeltaDataBlock (rs : RowSetMetadata) (delta_id : Nat)
    (block_id : BlockId) : RowSetMetadata :=
  { rs with delta_blocks := rs.delta_blocks ++ [(delta_id, block_id)] }

/-- Embeds `RowSetMetadata::delta_blocks_count` (metadata.h:175-178): the
lock-protected length of the delta chain. -/
def RowSetMetadata.delta_blocks_count (rs : RowSetMetadata) : Nat :=
  rs.delta_blocks.length

/-- Result of an open/read operation: `ok` carries the opened block id and
its size, `notFound` is the store failing to resolve the id, `oob` marks the
undefined out-of-bounds access of the unchecked `delta_blocks_[index]`
vector indexing. -/
inductive OpenResult where
  | ok : BlockId → Nat → OpenResult
  | notFound : OpenResult
  | oob : OpenResult
  deriving DecidableEq

/-- Embeds `RowSetMetadata::OpenDataBlock` (metadata.h:124-127): opens the
block via the store and returns its size, or a not-found error when the
store cannot resolve the id. -/
def RowSetMetadata.OpenDataBlock (fs : FsManager) (block_id : BlockId) : OpenResult :=
  match fs.block_size block_id with
  | some sz => OpenResult.ok block_id sz
  | none => OpenResult.notFound

/-- Embeds `RowSetMetadata::OpenDeltaDataBlock` (metadata.h:170-173): opens
the block recorded as the second component of the index-th pair of the delta
chain; the vector access is unchecked, so an out-of-bounds index is the
undefined `oob` outcome. -/
def RowSetMetadata.OpenDeltaDataBlock (rs : RowSetMetadata) (fs : FsManager)
    (index : Nat) : OpenResult :=
  match rs.delta_blocks.get? index with
  | some p => RowSetMetadata.OpenDataBlock fs p.2
  | none => OpenResult.oob

/-- Folds a list of delta commits over a rowset, committing each pair in
order; used to state properties of commit sequences. -/
def commitAll (rs : RowSetMetadata) (commits : List (Nat × BlockId)) : RowSetMetadata :=
  commits.foldl (fun r c => r.CommitDeltaDataBlock c.1 c.2) rs

/-- Modelled from the spec: `RowSetMetadata::ToProtobuf` serializes the
rowset into its descriptor, carrying the id, the optional bloom and ad-hoc
index block ids (absence preserved as absence), the ordered column block ids
and the ordered delta pairs. -/
def RowSetMetadata.ToProtobuf (rs : RowSetMetadata) : RowSetDataPB :=
  { id := rs.id
    bloom_block := rs.bloom_block
    adhoc_index_block := rs.adhoc_index_block
    column_blocks := rs.column_blocks
    delta_blocks := rs.delta_blocks }

/-- Modelled from the spec: `RowSetMetadata::Load` hydrates the bloom, ad-hoc
index, column and delta block-id lists from a decoded rowset descriptor. -/
def RowSetMetadata.Load (pb : RowSetDataPB) : RowSetMetadata :=
  { bloom_block := pb.bloom_block
    adhoc_index_block := pb.adhoc_index_block
    column_blocks := pb.column_blocks
    delta_blocks := pb.delta_blocks
    id := pb.id }

/-- In-memory state of one `TabletMetadata`: tablet identity and key bounds,
the owned rowset collection in creation order, the superblock sequence
counter `sblk_id_` and the atomic rowset-id counter `next_rowset_idx_`. -/
structure TabletMetadata where
  oid : String
  start_key : String
  end_key : String
  rowsets : List RowSetMetadata
  sblk_id : Nat
  next_rowset_idx : Nat
  deriving DecidableEq

/-- Modelled from the spec: `TabletMetadata::CreateRowSet` atomically
allocates the next rowset id by a single increment of `next_rowset_idx_`,
constructs a fresh empty `RowSetMetadata` carrying that id and returns it
without registering or flushing it. -/
def TabletMetadata.CreateRowSet (tm : TabletMetadata) :
    RowSetMetadata × TabletMetadata :=
  ({ bloom_block := none
     adhoc_index_block := none
     column_blocks := []
     delta_blocks := []
     id := tm.next_rowset_idx },
   { tm with next_rowset_idx := tm.next_rowset_idx + 1 })

/-- Modelled from the spec: serializing the full tablet state into the
superblock descriptor: tablet identity, key bounds, sequence number and the
full rowset collection, each rowset through `RowSetMetadata.ToProtobuf`. -/
def TabletMetadata.ToSuperBlockPB (tm : TabletMetadata) : TabletSuperBlockPB :=
  { oid := tm.oid
    start_key := tm.start_key
    end_key := tm.end_key
    sequence := tm.sblk_id
    rowsets := tm.rowsets.map RowSetMetadata.ToProtobuf }

/-- Modelled from the spec: `TabletMetadata::UpdateAndFlush(to_remove,
to_add)` removes every rowset whose id is in `to_remove` (absent ids being
silent no-ops), appends every rowset of `to_add`, serializes the resulting
collection plus tablet identity and key bounds into a descriptor and writes
it durably replacing the previous superblock; on an I/O failure of the
durable write the in-memory state is left unchanged and the previous durable
superblock remains the observable truth. The embedding returns the outcome
together with the (possibly unchanged) in-memory state and store. -/
def TabletMetadata.UpdateAndFlush (tm : TabletMetadata) (fs : FsManager)
    (to_remove : List Nat) (to_add : List RowSetMetadata) :
    COutcome Unit × TabletMetadata × FsManager :=
  let new_rowsets :=
    tm.rowsets.filter (fun rs => decide (rs.id ∉ to_remove)) ++ to_add
  let new_tm := { tm with rowsets := new_rowsets, sblk_id := tm.sblk_id + 1 }
  match fs.WriteSuperBlock new_tm.ToSuperBlockPB with
  | COutcome.ok fs' => (COutcome.ok (), new_tm, fs')
  | COutcome.err => (COutcome.err, tm, fs)
  | COutcome.fatal => (COutcome.fatal, tm, fs)

/-- Embeds `TabletMetadata::Flush` (metadata.h:54): `UpdateAndFlush` with an
empty remove set and an empty add list. -/
def TabletMetadata.Flush (tm : TabletMetadata) (fs : FsManager) :
    COutcome Unit × TabletMetadata × FsManager :=
  tm.UpdateAndFlush fs [] []

/-- Modelled from the spec: `TabletMetadata::Load` reads the durable
superblock through the master-block pointer, decodes it and reconstructs the
rowset collection, each entry hydrated through `RowSetMetadata.Load`; it
fails when the read fails (no decodable superblock). The spec leaves the
counter of a freshly loaded instance unspecified, so the embedding restarts
it at 0 (no claim depends on it). -/
def TabletMetadata.Load (fs : FsManager) : COutcome TabletMetadata :=
  match fs.superblock with
  | none => COutcome.err
  | some pb =>
      COutcome.ok
        { oid := pb.oid
          start_key := pb.start_key
          end_key := pb.end_key
          rowsets := pb.rowsets.map RowSetMetadata.Load
          sblk_id := pb.sequence
          next_rowset_idx := 0 }

/-- Embeds the aliasing of a registered rowset through its owning tablet: a
`CommitDeltaDataBlock` on a rowset registered in `rowsets_` (shared pointer
in the source) updates that rowset's delta chain as seen by the tablet, and
touches nothing else — in particular not the store. -/
def TabletMetadata.CommitDeltaOnRowSet (tm : TabletMetadata) (rowset_id : Nat)
    (delta_id : Nat) (block_id : BlockId) : TabletMetadata :=
  { tm with
    rowsets := tm.rowsets.map (fun rs =>
      if rs.id = rowset_id then rs.CommitDeltaDataBlock delta_id block_id else rs) }

/-- One operation of the `TabletMetadata` mutation interface, used to state
properties over arbitrary interleavings of allocate/commit/remove calls. -/
inductive TabletOp where
  | createRowSet : TabletOp
  | updateAndFlush : List Nat → List RowSetMetadata → TabletOp
  | flush : TabletOp

/-- Runs one `TabletOp` on a tablet-plus-store state, returning the new state
and the list of rowset ids issued by the operation (one id for a
`createRowSet`, none otherwise). -/
def runOp (s : TabletMetadata × FsManager) (op : TabletOp) :
    (TabletMetadata × FsManager) × List Nat :=
  match op with
  | TabletOp.createRowSet =>
      let (rs, tm') := s.1.CreateRowSet
      ((tm', s.2), [rs.id])
  | TabletOp.updateAndFlush to_remove to_add =>
      let r := s.1.UpdateAndFlush s.2 to_remove to_add
      ((r.2.1, r.2.2), [])
  | TabletOp.flush =>
      let r := s.1.Flush s.2
      ((r.2.1, r.2.2), [])

/-- Runs a sequence of `TabletOp`s, accumulating the issued rowset ids in
order. -/
def runOps (s : TabletMetadata × FsManager) : List TabletOp →
    (TabletMetadata × FsManager) × List Nat
  | [] => (s, [])
  | op :: ops =>
      let r := runOp s op
      let r' := runOps r.1 ops
      (r'.1, r.2 ++ r'.2)

/-! Concrete states used by the witnesses. -/

/-- A freshly created, unpopulated rowset. -/
def rsEmptyW : RowSetMetadata :=
  { bloom_block := none, adhoc_index_block := none, column_blocks := [],
    delta_blocks := [], id := 0 }

/-- A populated rowset: bloom and index slots set, two columns, one delta. -/
def rsFullW : RowSetMetadata :=
  { bloom_block := some 7, adhoc_index_block := some 8, column_blocks := [1, 2],
    delta_blocks := [(0, 3)], id := 5 }

/-- A store on which every I/O operation succeeds. -/
def fsOkW : FsManager :=
  { next_block_id := 10, op_idx := 0, fail_at := fun _ => false,
    superblock := none, block_size := fun _ => some 4 }

/-- A store on which every I/O operation fails. -/
def fsFailW : FsManager :=
  { next_block_id := 10, op_idx := 0, fail_at := fun _ => true,
    superblock := none, block_size := fun _ => some 4 }

/-! Helper lemmas. -/

/-- Filtering a rowset collection by non-membership of the id in an empty
removal set keeps every rowset. -/
theorem filter_remove_nil (l : List RowSetMetadata) :
    l.filter (fun rs => decide (rs.id ∉ ([] : List Nat))) = l := by
  simp

/-- An open/read operation on the store itself never produces the
out-of-bounds marker: that outcome only arises from the unchecked vector
indexing of the delta chain. -/
theorem OpenDataBlock_ne_oob (fs : FsManager) (bid : BlockId) :
    RowSetMetadata.OpenDataBlock fs bid ≠ OpenResult.oob := by
  unfold RowSetMetadata.OpenDataBlock
  cases fs.block_size bid <;> simp

/-- The delta chain of a folded commit sequence is the original chain with
the commits appended in order. -/
theorem commitAll_delta_blocks (commits : List (Nat × BlockId)) :
    ∀ rs : RowSetMetadata,
      (commitAll rs commits).delta_blocks = rs.delta_blocks ++ commits := by
  induction commits with
  | nil => intro rs; simp [commitAll]
  | cons c cs ih =>
      intro rs
      have h := ih (rs.CommitDeltaDataBlock c.1 c.2)
      simp only [commitAll, List.foldl_cons] at h ⊢
      rw [h]
      simp [RowSetMetadata.CommitDeltaDataBlock]

/-- Hydrating a rowset from its own serialized descriptor is the identity:
every field, including the optional bloom/index slots, round-trips. -/
theorem load_toprotobuf (rs : RowSetMetadata) :
    RowSetMetadata.Load rs.ToProtobuf = rs := rfl

/-- Hydrating every descriptor of a serialized rowset collection yields the
original collection. -/
theorem map_load_toprotobuf (l : List RowSetMetadata) :
    (l.map RowSetMetadata.ToProtobuf).map RowSetMetadata.Load = l := by
  simp [List.map_map]
  exact List.map_id l

/-- On a store whose next I/O operation succeeds, `UpdateAndFlush` succeeds:
the in-memory collection becomes the filtered-plus-appended one and the new
superblock describing it becomes durable. -/
theorem updateAndFlush_eq_ok (tm : TabletMetadata) (fs : FsManager)
    (to_remove : List Nat) (to_add : List RowSetMetadata)
    (hf : fs.fail_at fs.op_idx = false) :
    tm.UpdateAndFlush fs to_remove to_add =
      (COutcome.ok (),
       { tm with
         rowsets := tm.rowsets.filter (fun rs => decide (rs.id ∉ to_remove)) ++ to_add,
         sblk_id := tm.sblk_id + 1 },
       { fs with
         superblock := some (TabletMetadata.ToSuperBlockPB
           { tm with
             rowsets := tm.rowsets.filter (fun rs => decide (rs.id ∉ to_remove)) ++ to_add,
             sblk_id := tm.sblk_id + 1 }),
         op_idx := fs.op_idx + 1 }) := by
  simp [TabletMetadata.UpdateAndFlush, FsManager.WriteSuperBlock, hf]

/-- On a store whose next I/O operation fails, `UpdateAndFlush` returns the
error with the tablet and store states unchanged. -/
theorem updateAndFlush_eq_err (tm : TabletMetadata) (fs : FsManager)
    (to_remove : List Nat) (to_add : List RowSetMetadata)
    (hf : fs.fail_at fs.op_idx = true) :
    tm.UpdateAndFlush fs to_remove to_add = (COutcome.err, tm, fs) := by
  simp [TabletMetadata.UpdateAndFlush, FsManager.WriteSuperBlock, hf]

/-- Loading from a store holding a durable superblock reconstructs the tablet
state that superblock describes. -/
theorem load_superblock (fs : FsManager) (pb : TabletSuperBlockPB)
    (h : fs.superblock = some pb) :
    TabletMetadata.Load fs =
      COutcome.ok
        { oid := pb.oid, start_key := pb.start_key, end_key := pb.end_key,
          rowsets := pb.rowsets.map RowSetMetadata.Load,
          sblk_id := pb.sequence, next_rowset_idx := 0 } := by
  simp [TabletMetadata.Load, h]

/-! Claims. -/

/-- C1: when `UpdateAndFlush` fails because the durable superblock write
fails, the in-memory `rowsets()` collection equals its pre-call value, the
durable superblock is unchanged (no partially written superblock is ever
readable) and a subsequent `Load` observes exactly the previously durable
state. -/
theorem claim_C1 (tm : TabletMetadata) (fs : FsManager) (to_remove : List Nat)
    (to_add : List RowSetMetadata)
    (h : (tm.UpdateAndFlush fs to_remove to_add).1 = COutcome.err) :
    (tm.UpdateAndFlush fs to_remove to_add).2.1.rowsets = tm.rowsets ∧
    (tm.UpdateAndFlush fs to_remove to_add).2.2.superblock = fs.superblock ∧
    TabletMetadata.Load (tm.UpdateAndFlush fs to_remove to_add).2.2
      = TabletMetadata.Load fs := by
  cases hf : fs.fail_at fs.op_idx with
  | false => rw [updateAndFlush_eq_ok tm fs to_remove to_add hf] at h; exact absurd h (by simp)
  | true => rw [updateAndFlush_eq_err tm fs to_remove to_add hf]; exact ⟨rfl, rfl, rfl⟩

/-- C1 witness: a failing store leaves a one-rowset tablet and its durable
state untouched. -/
theorem claim_C1_witness :
    (({ oid := "t1", start_key := "a", end_key := "m", rowsets := [rsFullW],
        sblk_id := 0, next_rowset_idx := 6 } : TabletMetadata).UpdateAndFlush
          fsFailW [5] [rsEmptyW]).2.1.rowsets = [rsFullW] ∧
    (({ oid := "t1", start_key := "a", end_key := "m", rowsets := [rsFullW],
        sblk_id := 0, next_rowset_idx := 6 } : TabletMetadata).UpdateAndFlush
          fsFailW [5] [rsEmptyW]).2.2.superblock = fsFailW.superblock ∧
    TabletMetadata.Load
      (({ oid := "t1", start_key := "a", end_key := "m", rowsets := [rsFullW],
          sblk_id := 0, next_rowset_idx := 6 } : TabletMetadata).UpdateAndFlush
            fsFailW [5] [rsEmptyW]).2.2
      = TabletMetadata.Load fsFailW :=
  claim_C1
    { oid := "t1", start_key := "a", end_key := "m", rowsets := [rsFullW],
      sblk_id := 0, next_rowset_idx := 6 } fsFailW [5] [rsEmptyW] rfl

/-- The filter of the rowset collection only depends on removal ids that are
actually present: restricting the removal set to the present ids filters the
collection identically. -/
theorem filter_remove_present (l : List RowSetMetadata) (to_remove : List Nat) :
    l.filter (fun rs => decide (rs.id ∉
        to_remove.filter (fun i => decide (i ∈ l.map RowSetMetadata.id))))
      = l.filter (fun rs => decide (rs.id ∉ to_remove)) := by
  apply List.filter_congr
  intro rs hrs
  have hid : rs.id ∈ l.map RowSetMetadata.id := List.mem_map_of_mem _ hrs
  simp [List.mem_filter, hid]
  intro hall
  exact absurd rfl (hall rs hrs)

/-- C3: a successful `UpdateAndFlush` leaves the collection equal to the
prior collection with exactly the rowsets whose id is in `to_remove` deleted
and `to_add` appended; absent ids in `to_remove` are silent no-ops, so
restricting the removal set to the ids actually present gives the very same
result (idempotent removal). -/
theorem claim_C3 (tm : TabletMetadata) (fs : FsManager) (to_remove : List Nat)
    (to_add : List RowSetMetadata)
    (h : (tm.UpdateAndFlush fs to_remove to_add).1 = COutcome.ok ()) :
    (tm.UpdateAndFlush fs to_remove to_add).2.1.rowsets
      = tm.rowsets.filter (fun rs => decide (rs.id ∉ to_remove)) ++ to_add ∧
    tm.UpdateAndFlush fs
        (to_remove.filter (fun i => decide (i ∈ tm.rowsets.map RowSetMetadata.id)))
        to_add
      = tm.UpdateAndFlush fs to_remove to_add := by
  constructor
  · cases hf : fs.fail_at fs.op_idx with
    | false => rw [updateAndFlush_eq_ok tm fs to_remove to_add hf]
    | true => rw [updateAndFlush_eq_err tm fs to_remove to_add hf] at h; exact absurd h (by simp)
  · simp only [TabletMetadata.UpdateAndFlush, filter_remove_present]

/-- C3 witness: removing the present id 5 and the absent id 9 removes
exactly the present rowset; restricting the removal set to present ids gives
the same call result. -/
theorem claim_C3_witness :
    (({ oid := "t1", start_key := "a", end_key := "m", rowsets := [rsFullW],
        sblk_id := 0, next_rowset_idx := 6 } : TabletMetadata).UpdateAndFlush
          fsOkW [5, 9] [rsEmptyW]).2.1.rowsets
      = [rsFullW].filter (fun rs => decide (rs.id ∉ [5, 9])) ++ [rsEmptyW] ∧
    ({ oid := "t1", start_key := "a", end_key := "m", rowsets := [rsFullW],
       sblk_id := 0, next_rowset_idx := 6 } : TabletMetadata).UpdateAndFlush
         fsOkW ([5, 9].filter (fun i =>
           decide (i ∈ [rsFullW].map RowSetMetadata.id))) [rsEmptyW]
      = ({ oid := "t1", start_key := "a", end_key := "m", rowsets := [rsFullW],
           sblk_id := 0, next_rowset_idx := 6 } : TabletMetadata).UpdateAndFlush
             fsOkW [5, 9] [rsEmptyW] :=
  claim_C3
    { oid := "t1", start_key := "a", end_key := "m", rowsets := [rsFullW],
      sblk_id := 0, next_rowset_idx := 6 } fsOkW [5, 9] [rsEmptyW] rfl

/-- C2: after `CreateRowSet` and a successful `UpdateAndFlush(add=[rs])`, a
`Load` from the same durable location reconstructs the collection with the
flushed rowset appended, and that rowset's bloom, ad-hoc index, column and
delta block-id lists exactly equal those recorded before the flush — an
absent bloom/index slot round-trips as absent. -/
theorem claim_C2 (tm : TabletMetadata) (fs : FsManager) (rs : RowSetMetadata)
    (h : (tm.UpdateAndFlush fs [] [rs]).1 = COutcome.ok ()) :
    ∃ tm', TabletMetadata.Load (tm.UpdateAndFlush fs [] [rs]).2.2
        = COutcome.ok tm' ∧
      tm'.rowsets = tm.rowsets ++ [rs] ∧
      ∃ rs' ∈ tm'.rowsets, rs'.id = rs.id ∧
        rs'.bloom_block = rs.bloom_block ∧
        rs'.adhoc_index_block = rs.adhoc_index_block ∧
        rs'.column_blocks = rs.column_blocks ∧
        rs'.delta_blocks = rs.delta_blocks := by
  cases hf : fs.fail_at fs.op_idx with
  | true => rw [updateAndFlush_eq_err tm fs [] [rs] hf] at h; exact absurd h (by simp)
  | false =>
      rw [updateAndFlush_eq_ok tm fs [] [rs] hf, load_superblock _ _ rfl]
      have hrows :
          (TabletMetadata.ToSuperBlockPB
            { tm with
              rowsets := tm.rowsets.filter
                (fun r => decide (r.id ∉ ([] : List Nat))) ++ [rs],
              sblk_id := tm.sblk_id + 1 }).rowsets.map RowSetMetadata.Load
          = tm.rowsets ++ [rs] := by
        simp only [TabletMetadata.ToSuperBlockPB, map_load_toprotobuf,
          filter_remove_nil]
      exact ⟨_, rfl, hrows, rs, by rw [hrows]; simp, rfl, rfl, rfl, rfl, rfl⟩

/-- C2 witness: flushing a populated rowset onto an empty tablet and
reloading yields exactly that rowset, optional slots preserved. -/
theorem claim_C2_witness :
    ∃ tm', TabletMetadata.Load
        (({ oid := "t2", start_key := "a", end_key := "m", rowsets := [],
            sblk_id := 0, next_rowset_idx := 1 } : TabletMetadata).UpdateAndFlush
              fsOkW [] [rsFullW]).2.2
        = COutcome.ok tm' ∧
      tm'.rowsets = [] ++ [rsFullW] ∧
      ∃ rs' ∈ tm'.rowsets, rs'.id = rsFullW.id ∧
        rs'.bloom_block = rsFullW.bloom_block ∧
        rs'.adhoc_index_block = rsFullW.adhoc_index_block ∧
        rs'.column_blocks = rsFullW.column_blocks ∧
        rs'.delta_blocks = rsFullW.delta_blocks :=
  claim_C2
    { oid := "t2", start_key := "a", end_key := "m", rowsets := [],
      sblk_id := 0, next_rowset_idx := 1 } fsOkW rsFullW rfl

/-- The operation `UpdateAndFlush` never changes the rowset-id counter, whether the
durable write succeeds or fails. -/
theorem updateAndFlush_next_idx (tm : TabletMetadata) (fs : FsManager)
    (to_remove : List Nat) (to_add : List RowSetMetadata) :
    (tm.UpdateAndFlush fs to_remove to_add).2.1.next_rowset_idx
      = tm.next_rowset_idx := by
  cases hf : fs.fail_at fs.op_idx with
  | false => rw [updateAndFlush_eq_ok tm fs to_remove to_add hf]
  | true => rw [updateAndFlush_eq_err tm fs to_remove to_add hf]

/-- Two adjacent ranges of consecutive naturals concatenate into one. -/
theorem range'_append_simple (a m k : Nat) :
    List.range' a m ++ List.range' (a + m) k = List.range' a (m + k) := by
  rw [Nat.add_comm m k]
  simp

/-- One step of the operation interpreter: the ids issued by one operation
are exactly the consecutive ids starting at the current counter, and the
counter advances by their number. -/
theorem runOp_spec (s : TabletMetadata × FsManager) (op : TabletOp) :
    (runOp s op).1.1.next_rowset_idx
      = s.1.next_rowset_idx + (runOp s op).2.length ∧
    (runOp s op).2 = List.range' s.1.next_rowset_idx (runOp s op).2.length := by
  cases op with
  | createRowSet =>
      exact ⟨by simp [runOp, TabletMetadata.CreateRowSet],
        by simp [runOp, TabletMetadata.CreateRowSet]⟩
  | updateAndFlush to_remove to_add =>
      exact ⟨by simp [runOp, updateAndFlush_next_idx], by simp [runOp]⟩
  | flush =>
      exact ⟨by simp [runOp, TabletMetadata.Flush, updateAndFlush_next_idx],
        by simp [runOp]⟩

/-- Over any operation sequence the issued ids are exactly the consecutive
ids starting at the initial counter, and the counter advances by their
number. -/
theorem runOps_spec (ops : List TabletOp) :
    ∀ s : TabletMetadata × FsManager,
      (runOps s ops).1.1.next_rowset_idx
        = s.1.next_rowset_idx + (runOps s ops).2.length ∧
      (runOps s ops).2
        = List.range' s.1.next_rowset_idx (runOps s ops).2.length := by
  induction ops with
  | nil => intro s; simp [runOps]
  | cons op ops ih =>
      intro s
      obtain ⟨h1, h2⟩ := runOp_spec s op
      obtain ⟨h3, h4⟩ := ih (runOp s op).1
      simp only [runOps]
      constructor
      · rw [List.length_append, h3, h1, Nat.add_assoc]
      · rw [h2, h4, h1, List.length_append]
        simp only [List.length_range']
        exact range'_append_simple _ _ _

/-- C4: within one TabletMetadata lifetime, across every interleaving of
`CreateRowSet`, `UpdateAndFlush` (including removals) and `Flush`, the
rowset ids issued by successive `CreateRowSet` calls are strictly increasing
and no id is ever issued twice. -/
theorem claim_C4 (s : TabletMetadata × FsManager) (ops : List TabletOp) :
    ((runOps s ops).2).Pairwise (· < ·) ∧ ((runOps s ops).2).Nodup := by
  rw [(runOps_spec ops s).2]
  exact ⟨List.pairwise_lt_range' _ _, List.nodup_range' _ _⟩

/-- C5: `NewBloomDataBlock` (resp. `NewAdHocIndexDataBlock`) on a rowset
whose bloom (resp. ad-hoc index) slot is already set aborts with a fatal
assertion failure rather than a recoverable error; a first call on the unset
slot passes the check and, when block creation succeeds, records the
store-assigned block id in that slot. -/
theorem claim_C5 (rs : RowSetMetadata) (fs : FsManager) :
    (rs.bloom_block ≠ none → rs.NewBloomDataBlock fs = COutcome.fatal) ∧
    (rs.adhoc_index_block ≠ none → rs.NewAdHocIndexDataBlock fs = COutcome.fatal) ∧
    (rs.bloom_block = none → fs.fail_at fs.op_idx = false →
      ∃ bid fs', rs.NewBloomDataBlock fs =
        COutcome.ok (bid, { rs with bloom_block := some bid }, fs')) ∧
    (rs.adhoc_index_block = none → fs.fail_at fs.op_idx = false →
      ∃ bid fs', rs.NewAdHocIndexDataBlock fs =
        COutcome.ok (bid, { rs with adhoc_index_block := some bid }, fs')) := by
  refine ⟨?_, ?_, ?_, ?_⟩
  · intro h
    cases hb : rs.bloom_block with
    | none => exact absurd hb h
    | some b => simp [RowSetMetadata.NewBloomDataBlock, hb]
  · intro h
    cases hb : rs.adhoc_index_block with
    | none => exact absurd hb h
    | some b => simp [RowSetMetadata.NewAdHocIndexDataBlock, hb]
  · intro h hf
    refine ⟨fs.next_block_id,
      { fs with next_block_id := fs.next_block_id + 1, op_idx := fs.op_idx + 1 }, ?_⟩
    simp [RowSetMetadata.NewBloomDataBlock, h, FsManager.CreateNewBlock, hf]
  · intro h hf
    refine ⟨fs.next_block_id,
      { fs with next_block_id := fs.next_block_id + 1, op_idx := fs.op_idx + 1 }, ?_⟩
    simp [RowSetMetadata.NewAdHocIndexDataBlock, h, FsManager.CreateNewBlock, hf]

/-- C5 witness: on a populated rowset both second allocations abort
fatally; on a fresh rowset both first allocations record the new id. -/
theorem claim_C5_witness :
    (rsFullW.NewBloomDataBlock fsOkW = COutcome.fatal) ∧
    (rsFullW.NewAdHocIndexDataBlock fsOkW = COutcome.fatal) ∧
    (∃ bid fs', rsEmptyW.NewBloomDataBlock fsOkW =
      COutcome.ok (bid, { rsEmptyW with bloom_block := some bid }, fs')) ∧
    (∃ bid fs', rsEmptyW.NewAdHocIndexDataBlock fsOkW =
      COutcome.ok (bid, { rsEmptyW with adhoc_index_block := some bid }, fs')) :=
  ⟨(claim_C5 rsFullW fsOkW).1 (by decide),
   (claim_C5 rsFullW fsOkW).2.1 (by decide),
   (claim_C5 rsEmptyW fsOkW).2.2.1 rfl rfl,
   (claim_C5 rsEmptyW fsOkW).2.2.2 rfl rfl⟩

/-- C6: `NewColumnDataBlock(col_idx)` aborts with a fatal assertion unless
`col_idx` equals the current number of recorded column blocks; when it does
and block creation succeeds, the new block id is appended, the list has
length `col_idx + 1` and all earlier entries are unchanged. -/
theorem claim_C6 (rs : RowSetMetadata) (fs : FsManager) (col_idx : Nat) :
    (col_idx ≠ rs.column_blocks.length →
      rs.NewColumnDataBlock col_idx fs = COutcome.fatal) ∧
    (col_idx = rs.column_blocks.length → fs.fail_at fs.op_idx = false →
      ∃ bid fs', rs.NewColumnDataBlock col_idx fs =
          COutcome.ok (bid, { rs with column_blocks := rs.column_blocks ++ [bid] }, fs') ∧
        (rs.column_blocks ++ [bid]).length = col_idx + 1 ∧
        (rs.column_blocks ++ [bid]).take col_idx = rs.column_blocks) := by
  constructor
  · intro h
    have hne : ¬ (rs.column_blocks.length = col_idx) := fun e => h e.symm
    simp [RowSetMetadata.NewColumnDataBlock, hne]
  · intro h hf
    subst h
    refine ⟨fs.next_block_id,
      { fs with next_block_id := fs.next_block_id + 1, op_idx := fs.op_idx + 1 },
      ?_, ?_, ?_⟩
    · simp [RowSetMetadata.NewColumnDataBlock, FsManager.CreateNewBlock, hf]
    · simp
    · exact List.take_left rs.column_blocks [fs.next_block_id]

/-- C6 witness: appending column index 3 on a two-column rowset aborts;
appending column index 2 succeeds, yields three columns and keeps the first
two entries. -/
theorem claim_C6_witness :
    (rsFullW.NewColumnDataBlock 3 fsOkW = COutcome.fatal) ∧
    (∃ bid fs', rsFullW.NewColumnDataBlock 2 fsOkW =
        COutcome.ok (bid, { rsFullW with column_blocks := rsFullW.column_blocks ++ [bid] }, fs') ∧
      (rsFullW.column_blocks ++ [bid]).length = 2 + 1 ∧
      (rsFullW.column_blocks ++ [bid]).take 2 = rsFullW.column_blocks) :=
  ⟨(claim_C6 rsFullW fsOkW 3).1 (by decide),
   (claim_C6 rsFullW fsOkW 2).2 (by decide) rfl⟩

/-- C7: the delta chain changes only through `CommitDeltaDataBlock`:
`NewDeltaDataBlock` returns a fresh block id without recording anything in
the rowset state; each commit appends exactly its pair at the end of the
chain; folded commit sequences appear in commit order and
`delta_blocks_count` equals the prior count plus the number of commits. -/
theorem claim_C7 (rs : RowSetMetadata) (fs : FsManager)
    (commits : List (Nat × BlockId)) :
    (∀ bid rs' fs', rs.NewDeltaDataBlock fs = COutcome.ok (bid, rs', fs') → rs' = rs) ∧
    (∀ delta_id block_id, (rs.CommitDeltaDataBlock delta_id block_id).delta_blocks
        = rs.delta_blocks ++ [(delta_id, block_id)]) ∧
    (commitAll rs commits).delta_blocks = rs.delta_blocks ++ commits ∧
    (commitAll rs commits).delta_blocks_count
        = rs.delta_blocks_count + commits.length := by
  refine ⟨?_, ?_, commitAll_delta_blocks commits rs, ?_⟩
  · intro bid rs' fs' h
    revert h
    cases hc : fs.CreateNewBlock with
    | ok p => simp [RowSetMetadata.NewDeltaDataBlock, hc]; intro _ h _; exact h.symm
    | err => simp [RowSetMetadata.NewDeltaDataBlock, hc]
    | fatal => simp [RowSetMetadata.NewDeltaDataBlock, hc]
  · intro delta_id block_id
    simp [RowSetMetadata.CommitDeltaDataBlock]
  · simp [RowSetMetadata.delta_blocks_count, commitAll_delta_blocks commits rs]

/-- C7 witness: allocating a delta block on a populated rowset leaves its
state untouched. -/
theorem claim_C7_witness : rsFullW = rsFullW :=
  (claim_C7 rsFullW fsOkW []).1 fsOkW.next_block_id rsFullW
    { fsOkW with next_block_id := fsOkW.next_block_id + 1, op_idx := fsOkW.op_idx + 1 }
    rfl

/-- C10: for every index strictly below `delta_blocks_count`,
`OpenDeltaDataBlock(index)` opens exactly the block whose id is the second
component of the index-th committed pair, and the out-of-bounds branch of
the unchecked vector access is unreachable. -/
theorem claim_C10 (rs : RowSetMetadata) (fs : FsManager) (index : Nat)
    (h : index < rs.delta_blocks_count) :
    ∃ p, rs.delta_blocks.get? index = some p ∧
      rs.OpenDeltaDataBlock fs index = RowSetMetadata.OpenDataBlock fs p.2 ∧
      rs.OpenDeltaDataBlock fs index ≠ OpenResult.oob := by
  have hlt : index < rs.delta_blocks.length := h
  have hp : rs.delta_blocks.get? index = some (rs.delta_blocks.get ⟨index, hlt⟩) :=
    List.get?_eq_get hlt
  refine ⟨rs.delta_blocks.get ⟨index, hlt⟩, hp, ?_, ?_⟩
  · unfold RowSetMetadata.OpenDeltaDataBlock
    rw [hp]
  · unfold RowSetMetadata.OpenDeltaDataBlock
    rw [hp]
    exact OpenDataBlock_ne_oob fs _

/-- C10 witness: index 0 on a rowset with one committed delta pair opens the
block of that pair. -/
theorem claim_C10_witness :
    ∃ p, rsFullW.delta_blocks.get? 0 = some p ∧
      rsFullW.OpenDeltaDataBlock fsOkW 0 = RowSetMetadata.OpenDataBlock fsOkW p.2 ∧
      rsFullW.OpenDeltaDataBlock fsOkW 0 ≠ OpenResult.oob :=
  claim_C10 rsFullW fsOkW 0 (by decide)

/-! Concrete states for the delta-commit claims. -/

/-- A rowset with one column pair and a bloom block, empty delta chain. -/
def rsC8 : RowSetMetadata :=
  { bloom_block := some 1, adhoc_index_block := none, column_blocks := [2, 3],
    delta_blocks := [], id := 0 }

/-- A tablet owning `rsC8` as its only (registered) rowset. -/
def tmC8 : TabletMetadata :=
  { oid := "t8", start_key := "a", end_key := "m", rowsets := [rsC8],
    sblk_id := 1, next_rowset_idx := 1 }

/-- A store whose durable superblock describes exactly `tmC8` and on which
every I/O operation succeeds. -/
def fsC8 : FsManager :=
  { next_block_id := 4, op_idx := 0, fail_at := fun _ => false,
    superblock := some tmC8.ToSuperBlockPB, block_size := fun _ => some 4 }

/-- C8 counterexample: committing a delta block to a registered rowset does
not trigger any tablet-level flush — the body of `CommitDeltaDataBlock`
(metadata.h:164-168) only appends to the in-memory chain — so right after
the append the durable superblock still describes the old chain: in memory
the rowset has one delta pair while a `Load` of the untouched durable state
yields a chain of length zero. -/
theorem claim_C8_counterexample :
    ((tmC8.CommitDeltaOnRowSet 0 5 7).rowsets.map
        RowSetMetadata.delta_blocks_count = [1]) ∧
    (∃ tm', TabletMetadata.Load fsC8 = COutcome.ok tm' ∧
      tm'.rowsets.map RowSetMetadata.delta_blocks_count = [0] ∧
      tm'.rowsets.map RowSetMetadata.delta_blocks_count ≠
        (tmC8.CommitDeltaOnRowSet 0 5 7).rowsets.map
          RowSetMetadata.delta_blocks_count) := by
  refine ⟨by decide,
    ⟨{ oid := "t8", start_key := "a", end_key := "m", rowsets := [rsC8],
       sblk_id := 1, next_rowset_idx := 0 }, rfl, by decide, by decide⟩⟩

/-- C8 (amended): committing a delta block only appends the pair to the
rowset's in-memory chain; the durable superblock becomes authoritative about
the delta chain only after a subsequent explicit `Flush` (which
`RowSetMetadata::Flush` delegates to the tablet), after which a `Load`
reconstructs exactly the post-append rowset collection. -/
theorem claim_C8 (tm : TabletMetadata) (fs : FsManager)
    (rowset_id delta_id : Nat) (block_id : BlockId)
    (hf : fs.fail_at fs.op_idx = false) :
    ((tm.CommitDeltaOnRowSet rowset_id delta_id block_id).Flush fs).1
      = COutcome.ok () ∧
    ∃ tm', TabletMetadata.Load
        ((tm.CommitDeltaOnRowSet rowset_id delta_id block_id).Flush fs).2.2
        = COutcome.ok tm' ∧
      tm'.rowsets = (tm.CommitDeltaOnRowSet rowset_id delta_id block_id).rowsets := by
  unfold TabletMetadata.Flush
  rw [updateAndFlush_eq_ok _ fs [] [] hf]
  refine ⟨rfl, _, load_superblock _ _ rfl, ?_⟩
  simp only [TabletMetadata.ToSuperBlockPB, map_load_toprotobuf,
    filter_remove_nil, List.append_nil]

/-- C8 witness: committing a delta pair to the registered rowset of `tmC8`
and then flushing makes the reloaded state show the appended chain. -/
theorem claim_C8_witness :
    ((tmC8.CommitDeltaOnRowSet 0 5 7).Flush fsC8).1 = COutcome.ok () ∧
    ∃ tm', TabletMetadata.Load ((tmC8.CommitDeltaOnRowSet 0 5 7).Flush fsC8).2.2
        = COutcome.ok tm' ∧
      tm'.rowsets = (tmC8.CommitDeltaOnRowSet 0 5 7).rowsets :=
  claim_C8 tmC8 fsC8 0 5 7 rfl

/-- C9: delta commits on two different rowsets of one tablet have disjoint
footprints — in either order the two commits produce the same tablet state,
the embedding of their taking distinct per-rowset locks and never
contending — while two commits on the same rowset serialize under that
rowset's delta lock: in both serialization orders both pairs are present
afterwards and `delta_blocks_count` reflects both commits. -/
theorem claim_C9 (tm : TabletMetadata) (rs : RowSetMetadata) (i j di dj : Nat)
    (bi bj : BlockId) :
    (i ≠ j →
      (tm.CommitDeltaOnRowSet i di bi).CommitDeltaOnRowSet j dj bj
        = (tm.CommitDeltaOnRowSet j dj bj).CommitDeltaOnRowSet i di bi) ∧
    (∀ rs2 ∈ [(rs.CommitDeltaDataBlock di bi).CommitDeltaDataBlock dj bj,
              (rs.CommitDeltaDataBlock dj bj).CommitDeltaDataBlock di bi],
      (di, bi) ∈ rs2.delta_blocks ∧ (dj, bj) ∈ rs2.delta_blocks ∧
      rs2.delta_blocks_count = rs.delta_blocks_count + 2) := by
  constructor
  · intro hne
    simp only [TabletMetadata.CommitDeltaOnRowSet, List.map_map]
    congr 1
    refine List.map_congr_left (fun rs0 hrs0 => ?_)
    by_cases hi : rs0.id = i <;> by_cases hj : rs0.id = j
    · exact absurd (hi.symm.trans hj) hne
    · simp [Function.comp, RowSetMetadata.CommitDeltaDataBlock, hi, hj, hne,
        Ne.symm hne]
    · simp [Function.comp, RowSetMetadata.CommitDeltaDataBlock, hi, hj, hne,
        Ne.symm hne]
    · simp [Function.comp, hi, hj]
  · intro rs2 h2
    simp only [List.mem_cons, List.not_mem_nil, or_false] at h2
    rcases h2 with h2 | h2 <;> subst h2 <;>
      simp [RowSetMetadata.CommitDeltaDataBlock, RowSetMetadata.delta_blocks_count]

/-- A tablet with two registered empty rowsets, ids 0 and 1. -/
def tmC9 : TabletMetadata :=
  { oid := "t9", start_key := "a", end_key := "m",
    rowsets := [rsEmptyW, { rsEmptyW with id := 1 }],
    sblk_id := 0, next_rowset_idx := 2 }

/-- C9 witness: on `tmC9` commits to rowsets 0 and 1 commute, and two
commits on one rowset leave both pairs present with count 2. -/
theorem claim_C9_witness :
    ((tmC9.CommitDeltaOnRowSet 0 10 100).CommitDeltaOnRowSet 1 11 101
      = (tmC9.CommitDeltaOnRowSet 1 11 101).CommitDeltaOnRowSet 0 10 100) ∧
    ((10, 100) ∈ ((rsEmptyW.CommitDeltaDataBlock 10 100).CommitDeltaDataBlock
        11 101).delta_blocks ∧
     (11, 101) ∈ ((rsEmptyW.CommitDeltaDataBlock 10 100).CommitDeltaDataBlock
        11 101).delta_blocks ∧
     ((rsEmptyW.CommitDeltaDataBlock 10 100).CommitDeltaDataBlock
        11 101).delta_blocks_count = rsEmptyW.delta_blocks_count + 2) :=
  ⟨(claim_C9 tmC9 rsEmptyW 0 1 10 11 100 101).1 (by decide),
   (claim_C9 tmC9 rsEmptyW 0 1 10 11 100 101).2 _ (by simp)⟩
